import Mathlib

/-!
Shallow embedding of the twirp-ts runtime protocol engine: the error model
(src/twirp/errors.ts), request validation (src/twirp/request.ts), the server
request lifecycle (src/twirp/server.ts), hook chaining (src/twirp/hooks.ts),
interceptor chaining (src/twirp/interceptors.ts), the REST gateway
(src/twirp/gateway.ts) and the reference HTTP client (src/twirp/http.client.ts).

TypeScript string enums are runtime strings, so TwirpErrorCode values are
modelled as the literal strings they compile to; fallible code is modelled
with Except or Option; the event ordering of the async request lifecycle is
modelled as an explicit trace of lifecycle events.
-/

namespace TwirpTs

/-! Error model, from src/twirp/errors.ts. -/

/-- TwirpError runtime value: code (a string at runtime, as TwirpErrorCode is a
TS string enum), message and string metadata.  The wrapped cause is local-only
and never serialized; it is omitted from the model. -/
structure TwirpError where
  code : String
  msg : String
  meta : List (String × String)
deriving Repr, DecidableEq

/-- Lookup in an association list, as JS object property access meta[key]. -/
def lookupStr {α : Type} (k : String) (l : List (String × α)) : Option α :=
  (l.find? (fun p => p.1 == k)).map (fun p => p.2)

/-- Assignment meta[key] = value on a JS object: overwrite in place when the
key exists, append otherwise. -/
def setKey {α : Type} (k : String) (v : α) : List (String × α) → List (String × α)
  | [] => [(k, v)]
  | p :: rest => if p.1 == k then (k, v) :: rest else p :: setKey k v rest

/-- TwirpError.withMeta from errors.ts: adds a metadata kv, last write wins. -/
def TwirpError.withMeta (e : TwirpError) (k v : String) : TwirpError :=
  { e with meta := setKey k v e.meta }

/-- TwirpError.getMeta from errors.ts: a single metadata value, "" if absent. -/
def TwirpError.getMeta (e : TwirpError) (k : String) : String :=
  (lookupStr k e.meta).getD ""

/-- BadRouteError constructor from errors.ts: code bad_route with the
twirp_invalid_route metadata entry "<method> <url>". -/
def badRouteError (msg method url : String) : TwirpError :=
  (TwirpError.mk "bad_route" msg []).withMeta "twirp_invalid_route" (method ++ " " ++ url)

/-- NotFoundError constructor from errors.ts. -/
def notFoundError (msg : String) : TwirpError :=
  TwirpError.mk "not_found" msg []

/-- InternalServerError constructor from errors.ts. -/
def internalServerError (msg : String) : TwirpError :=
  TwirpError.mk "internal" msg []

/-- InternalServerErrorWith from errors.ts: wraps a non-Twirp error, using its
message, with metadata cause set to the error name (the cause object itself is
local-only). -/
def internalServerErrorWith (name msg : String) : TwirpError :=
  (internalServerError msg).withMeta "cause" name

/-- Decoded JSON wire object for an error, as consumed by
TwirpError.fromObject: the code, msg and meta properties may each be absent. -/
structure ErrObject where
  code : Option String
  msg : Option String
  meta : List (String × String)
deriving Repr, DecidableEq

/-- JS expression (x || d) on an optional string property: the default is used
when the property is absent or a falsy (empty) string. -/
def jsOrString (x : Option String) (d : String) : String :=
  match x with
  | none => d
  | some s => if s == "" then d else s

/-- TwirpError.fromObject from errors.ts: code defaults to
TwirpErrorCode.Unknown ("unknown") under JS truthiness, msg defaults to
"unknown", and every meta key of the object is copied with withMeta. -/
def TwirpError.fromObject (obj : ErrObject) : TwirpError :=
  let e := TwirpError.mk (jsOrString obj.code "unknown") (jsOrString obj.msg "unknown") []
  obj.meta.foldl (fun acc p => acc.withMeta p.1 p.2) e

/-- ServerHTTPStatusFromErrorCode from errors.ts: maps a Twirp error code to
its HTTP response status, 0 when the code is not one of the enumerated
constants. -/
def httpStatusFromErrorCode (code : String) : Nat :=
  if code = "canceled" then 408
  else if code = "unknown" then 500
  else if code = "invalid_argument" then 400
  else if code = "malformed" then 400
  else if code = "deadline_exceeded" then 408
  else if code = "not_found" then 404
  else if code = "bad_route" then 404
  else if code = "already_exists" then 409
  else if code = "permission_denied" then 403
  else if code = "unauthenticated" then 401
  else if code = "resource_exhausted" then 429
  else if code = "failed_precondition" then 412
  else if code = "aborted" then 409
  else if code = "out_of_range" then 400
  else if code = "unimplemented" then 501
  else if code = "internal" then 500
  else if code = "unavailable" then 503
  else if code = "data_loss" then 500
  else 0

/-- The eighteen enumerated TwirpErrorCode constants of errors.ts, in
declaration order. -/
def twirpErrorCodes : List String :=
  ["canceled", "unknown", "invalid_argument", "malformed", "deadline_exceeded",
   "not_found", "bad_route", "already_exists", "permission_denied",
   "unauthenticated", "resource_exhausted", "failed_precondition", "aborted",
   "out_of_range", "unimplemented", "internal", "unavailable", "data_loss"]

/-- isValidErrorCode from errors.ts. -/
def isValidErrorCode (code : String) : Bool :=
  httpStatusFromErrorCode code != 0

/-! Request validation, from src/twirp/request.ts. -/

/-- TwirpContentType enum from server.ts. -/
inductive TwirpContentType where
  | Unknown
  | JSON
  | Protobuf
deriving Repr, DecidableEq

/-- getContentType from request.ts: exact match on the mime header value. -/
def getContentType (mimeType : Option String) : TwirpContentType :=
  match mimeType with
  | some "application/protobuf" => TwirpContentType.Protobuf
  | some "application/json" => TwirpContentType.JSON
  | _ => TwirpContentType.Unknown

/-- Result of parseTwirpPath: the path pieces of a twirp URL.  The field pfx
holds the leading path piece (everything before the service segment). -/
structure TwirpPathParts where
  pfx : String
  pkgService : String
  method : String
deriving Repr, DecidableEq

/-- JS String.prototype.split with a one-character separator, over the
character list: splitting the empty string yields one empty piece, a
separator at either end yields an empty piece there. -/
def splitChar (sep : Char) : List Char → List String
  | [] => [""]
  | c :: rest =>
    let r := splitChar sep rest
    if c == sep then "" :: r
    else
      match r with
      | [] => [String.mk [c]]
      | hd :: tl => String.mk (c :: hd.data) :: tl

/-- path.split("/") of request.ts. -/
def jsSplitSlash (s : String) : List String :=
  splitChar '/' s.data

/-- parseTwirpPath from request.ts: split the path on "/"; fewer than two
pieces gives all-empty components, otherwise the last piece is the method, the
one before it the package.Service pair, and the rest rejoined is the leading
piece. -/
def parseTwirpPath (path : String) : TwirpPathParts :=
  let parts := jsSplitSlash path
  if parts.length < 2 then
    TwirpPathParts.mk "" "" ""
  else
    TwirpPathParts.mk
      (String.intercalate "/" (parts.take (parts.length - 2)))
      ((parts.getD (parts.length - 2) ""))
      ((parts.getD (parts.length - 1) ""))

/-- The relevant pieces of a TwirpContext, from context.ts/server.ts:
package and service are fixed at construction, the content type is negotiated
from the header. -/
structure TwirpCtx where
  packageName : String
  serviceName : String
  contentType : TwirpContentType
deriving Repr, DecidableEq

/-- The relevant fields of the incoming node HTTP request. -/
structure IncomingReq where
  method : String
  url : String
  contentTypeHeader : Option String
deriving Repr, DecidableEq

/-- Successful validation output, the TwirpRequest of server.ts. -/
structure TwirpRequest where
  pfx : String
  pkgService : String
  method : String
  mimeContentType : String
  contentType : TwirpContentType
deriving Repr, DecidableEq

/-- validateRequest from request.ts: POST only, then path shape, then the
configured path piece, then a known content type; every rejection is a
BadRouteError. -/
def validateRequest (ctx : TwirpCtx) (req : IncomingReq) (pathPfx : String) :
    Except TwirpError TwirpRequest :=
  if req.method ≠ "POST" then
    Except.error (badRouteError
      ("unsupported method " ++ req.method ++ " (only POST is allowed)")
      req.method req.url)
  else
    let path := parseTwirpPath req.url
    if path.pkgService ≠ ctx.packageName ++ "." ++ ctx.serviceName then
      Except.error (badRouteError ("no handler for path " ++ req.url)
        req.method req.url)
    else if path.pfx ≠ pathPfx then
      Except.error (badRouteError
        ("invalid path prefix " ++ path.pfx ++ ", expected " ++ pathPfx ++
          ", on path " ++ req.url)
        req.method req.url)
    else if ctx.contentType = TwirpContentType.Unknown then
      Except.error (badRouteError
        ("unexpected Content-Type: " ++ req.contentTypeHeader.getD "undefined")
        req.method req.url)
    else
      Except.ok (TwirpRequest.mk path.pfx path.pkgService path.method
        (req.contentTypeHeader.getD "") ctx.contentType)

/-- An HTTP error response as produced by writeError in server.ts: the status
comes from the code mapping, the content type is always JSON, and the payload
is the TwirpError that toJSON serializes. -/
structure WrittenResponse where
  status : Nat
  contentTypeHeader : String
  payload : TwirpError
deriving Repr, DecidableEq

/-- mustBeTwirpError input: a caught JS failure is either already a TwirpError
or some other Error carrying a name and a message. -/
inductive Failure where
  | twirp (e : TwirpError)
  | jsError (name msg : String)
deriving Repr, DecidableEq

/-- mustBeTwirpError from server.ts: pass TwirpError through, wrap anything
else as an internal error with the cause name in the metadata. -/
def mustBeTwirpError : Failure → TwirpError
  | Failure.twirp e => e
  | Failure.jsError name msg => internalServerErrorWith name msg

/-- writeError from server.ts: coerce to TwirpError, set the JSON content
type, map the code to the HTTP status, and serialize the error as the body. -/
def writeError (f : Failure) : WrittenResponse :=
  let e := mustBeTwirpError f
  WrittenResponse.mk (httpStatusFromErrorCode e.code) "application/json" e

/-! Hook chaining, from src/twirp/hooks.ts.  A callback is observed through
the trace of events its execution produces: a context callback maps the
context to its trace, the error callback additionally receives the
TwirpError.  Sequential awaiting of callbacks is trace concatenation. -/

/-- ServerHooks from hooks.ts: every lifecycle callback is optional. -/
structure ServerHooks (Ctx : Type) where
  requestReceived : Option (Ctx → List String)
  requestRouted : Option (Ctx → List String)
  requestPrepared : Option (Ctx → List String)
  responsePrepared : Option (Ctx → List String)
  requestSent : Option (Ctx → List String)
  responseSent : Option (Ctx → List String)
  error : Option (Ctx → TwirpError → List String)

/-- Run an optional context callback: absent callbacks produce no events. -/
def runCtxHook {Ctx : Type} (h : Option (Ctx → List String)) (ctx : Ctx) :
    List String :=
  match h with
  | none => []
  | some f => f ctx

/-- Run an optional error callback: absent callbacks produce no events. -/
def runErrHook {Ctx : Type} (h : Option (Ctx → TwirpError → List String))
    (ctx : Ctx) (err : TwirpError) : List String :=
  match h with
  | none => []
  | some f => f ctx err

/-- One composite callback of chainHooks: iterate the hook sets in order and
await the callback selected by sel when the set defines it. -/
def fanoutCtx {Ctx : Type} (sel : ServerHooks Ctx → Option (Ctx → List String))
    (hooks : List (ServerHooks Ctx)) (ctx : Ctx) : List String :=
  hooks.foldl (fun acc h => acc ++ runCtxHook (sel h) ctx) []

/-- The composite error callback of chainHooks: fans the same TwirpError out
to every error callback in order. -/
def fanoutErr {Ctx : Type} (hooks : List (ServerHooks Ctx)) (ctx : Ctx)
    (err : TwirpError) : List String :=
  hooks.foldl (fun acc h => acc ++ runErrHook h.error ctx err) []

/-- chainHooks from hooks.ts: null for no hook sets, the set itself for one,
otherwise a composite implementing every lifecycle callback by fanning out
over the input sets in registration order. -/
def chainHooks {Ctx : Type} : List (ServerHooks Ctx) → Option (ServerHooks Ctx)
  | [] => none
  | [h] => some h
  | hooks =>
    some (ServerHooks.mk
      (some (fanoutCtx ServerHooks.requestReceived hooks))
      (some (fanoutCtx ServerHooks.requestRouted hooks))
      (some (fanoutCtx ServerHooks.requestPrepared hooks))
      (some (fanoutCtx ServerHooks.responsePrepared hooks))
      (some (fanoutCtx ServerHooks.requestSent hooks))
      (some (fanoutCtx ServerHooks.responseSent hooks))
      (some (fanoutErr hooks)))

/-- isHook from hooks.ts, over the model: the structural check is whether any
recognized lifecycle key is present. -/
def isHook {Ctx : Type} (h : ServerHooks Ctx) : Bool :=
  h.requestReceived.isSome || h.requestPrepared.isSome || h.requestSent.isSome ||
  h.requestRouted.isSome || h.responsePrepared.isSome || h.responseSent.isSome ||
  h.error.isSome

/-! Interceptor chaining, from src/twirp/interceptors.ts.  An async
computation is observed as a pair of its event trace and its value. -/

/-- Trace-observing computation result. -/
def MRes (α : Type) : Type := List String × α

/-- Next from interceptors.ts: the continuation receiving context and typed
request. -/
def NextFn (Ctx Req Resp : Type) : Type := Ctx → Req → MRes Resp

/-- Interceptor from interceptors.ts. -/
def InterceptorFn (Ctx Req Resp : Type) : Type :=
  Ctx → Req → NextFn Ctx Req Resp → MRes Resp

/-- chainInterceptors from interceptors.ts: none for an empty list, the
interceptor itself for a singleton, otherwise a closure that wraps the
call-time handler right to left with interceptors 1..n-1 and passes the
result as next to interceptor 0. -/
def chainInterceptors {Ctx Req Resp : Type} :
    List (InterceptorFn Ctx Req Resp) → Option (InterceptorFn Ctx Req Resp)
  | [] => none
  | [i] => some i
  | first :: rest =>
    some (fun ctx request handler =>
      first ctx request
        (rest.foldr (fun i next => fun c r => i c r next) handler))

/-- An interceptor with observable pre-next and post-next phases: it logs pre,
delegates to next, logs post, and transforms the returned response with f. -/
def logInterceptor {Ctx Req Resp : Type} (pre post : String) (f : Resp → Resp) :
    InterceptorFn Ctx Req Resp :=
  fun ctx request next =>
    let r := next ctx request
    (pre :: r.1 ++ [post], f r.2)

/-! Server request lifecycle, from TwirpServer._httpHandler in server.ts.
The async control flow of one handled request is modelled as the trace of
lifecycle events it produces: invokeHook calls, the success write and the
error write.  Suspension outcomes that depend on the environment (hook
callbacks raising, the generated dispatch table, the body read, the
per-method handler) are inputs of the model. -/

/-- Lifecycle points dispatched through invokeHook. -/
inductive HookName where
  | requestReceived
  | requestRouted
  | requestPrepared
  | responsePrepared
  | requestSent
  | responseSent
deriving Repr, DecidableEq

/-- One observable event of the request lifecycle. -/
inductive Ev where
  | hookAt (name : HookName)
  | hookError (e : TwirpError)
  | writeOk
  | writeErrResp (w : WrittenResponse)
deriving Repr, DecidableEq

/-- Environment of one handled request: the context and raw request fed to
validateRequest, plus the outcome of every suspension point of
_httpHandler. -/
structure ServerReq where
  ctx : TwirpCtx
  req : IncomingReq
  pathPfx : String
  recvHook : Option Failure
  methodKnown : Bool
  bodyRead : Option TwirpError
  routedHook : Option Failure
  handler : Except Failure String

/-- The try block of _httpHandler: requestReceived hooks, validateRequest,
the generated dispatch lookup (onNotFound raises BadRouteError), the body
read, then the matched handler closure, which awaits onMatch (the
requestRouted hooks) before handling; on success the responsePrepared and
deprecated requestPrepared hooks run and the 200 response is written.
Returns the produced events and the failure that escaped the block, if
any. -/
def tryBlock (s : ServerReq) : List Ev × Option Failure :=
  match s.recvHook with
  | some e => ([Ev.hookAt HookName.requestReceived], some e)
  | none =>
    match validateRequest s.ctx s.req s.pathPfx with
    | Except.error e =>
      ([Ev.hookAt HookName.requestReceived], some (Failure.twirp e))
    | Except.ok _ =>
      if !s.methodKnown then
        ([Ev.hookAt HookName.requestReceived],
         some (Failure.twirp (badRouteError
           ("no handler for path " ++ s.req.url) s.req.method s.req.url)))
      else
        match s.bodyRead with
        | some e =>
          ([Ev.hookAt HookName.requestReceived], some (Failure.twirp e))
        | none =>
          match s.routedHook with
          | some e =>
            ([Ev.hookAt HookName.requestReceived,
              Ev.hookAt HookName.requestRouted], some e)
          | none =>
            match s.handler with
            | Except.error e =>
              ([Ev.hookAt HookName.requestReceived,
                Ev.hookAt HookName.requestRouted], some e)
            | Except.ok _ =>
              ([Ev.hookAt HookName.requestReceived,
                Ev.hookAt HookName.requestRouted,
                Ev.hookAt HookName.responsePrepared,
                Ev.hookAt HookName.requestPrepared,
                Ev.writeOk], none)

/-- The whole of _httpHandler: the try block, then on failure the catch block
(error hooks with the failure coerced through mustBeTwirpError, then
writeError since no headers were sent yet), then the finally block invoking
the responseSent and deprecated requestSent hooks. -/
def httpHandlerTrace (s : ServerReq) : List Ev :=
  let t := tryBlock s
  let catchEvs :=
    match t.2 with
    | none => []
    | some f => [Ev.hookError (mustBeTwirpError f), Ev.writeErrResp (writeError f)]
  t.1 ++ catchEvs ++
    [Ev.hookAt HookName.responseSent, Ev.hookAt HookName.requestSent]

/-- Event discriminator: the responseSent hook invocation. -/
def isRespSentEv : Ev → Bool
  | Ev.hookAt HookName.responseSent => true
  | _ => false

/-- Event discriminator: the deprecated requestSent hook invocation. -/
def isReqSentEv : Ev → Bool
  | Ev.hookAt HookName.requestSent => true
  | _ => false

/-- Event discriminator: either of the two end-of-request hook
invocations. -/
def isSentHookEv (e : Ev) : Bool :=
  isRespSentEv e || isReqSentEv e

/-- Event discriminator: any response write. -/
def isWriteEv : Ev → Bool
  | Ev.writeOk => true
  | Ev.writeErrResp _ => true
  | _ => false

/-- Event discriminator: an error hook invocation. -/
def isErrorHookEv : Ev → Bool
  | Ev.hookError _ => true
  | _ => false

/-- Event discriminator: the error response write. -/
def isErrWriteEv : Ev → Bool
  | Ev.writeErrResp _ => true
  | _ => false

/-- Scanner: every write event of the trace precedes every end-of-request
hook invocation, expressed as no write occurring in a suffix that follows a
sent hook. -/
def noWriteAfterSent : List Ev → Bool
  | [] => true
  | e :: rest =>
    (!isSentHookEv e || rest.all (fun x => !isWriteEv x)) && noWriteAfterSent rest

/-- Scanner: walking the trace, an error hook invocation occurs strictly
before any error response write. -/
def errHookBeforeErrWrite : List Ev → Bool
  | [] => true
  | e :: rest =>
    if isErrWriteEv e then false
    else if isErrorHookEv e then true
    else errHookBeforeErrWrite rest

/-! Gateway, from src/twirp/gateway.ts.  JSON values are modelled by an
inductive type; the external query-string parser (querystring + dot-object)
is an opaque function supplied to the model. -/

/-- A decoded JSON value. -/
inductive JsonVal where
  | null
  | bool (b : Bool)
  | num (n : Int)
  | str (s : String)
  | arr (items : List JsonVal)
  | obj (fields : List (String × JsonVal))
deriving Repr, BEq

/-- JS object spread of an arbitrary value into an object literal: objects
contribute their fields, arrays and strings their indexed elements,
primitives nothing. -/
def spreadFields : JsonVal → List (String × JsonVal)
  | JsonVal.obj fs => fs
  | JsonVal.arr items => items.enum.map (fun p => (toString p.1, p.2))
  | JsonVal.str s =>
    s.toList.enum.map (fun p => (toString p.1, JsonVal.str (String.singleton p.2)))
  | _ => []

/-- JS object spread merge of two objects, second spread last: keys of the
first keep their position but a colliding key takes the value of the second
object, and keys only in the second are appended in order. -/
def mergeObj (a b : List (String × JsonVal)) : List (String × JsonVal) :=
  a.map (fun p =>
      match lookupStr p.1 b with
      | some v => (p.1, v)
      | none => p)
    ++ b.filter (fun q => (lookupStr q.1 a).isNone)

/-- The queryString.replace of Gateway.parseQueryString: removes the first
question mark. -/
def removeFirstQM (s : String) : String :=
  match splitChar '?' s.data with
  | [] => s
  | a :: rest => a ++ String.intercalate "?" rest

/-- Gateway.parseQueryString: strip the first question mark, then hand the
string to the external form decoder (querystring.parse composed with
dot-object expansion), modelled as the opaque function parseQS. -/
def gwParseQueryString (parseQS : String → List (String × JsonVal))
    (queryString : String) : List (String × JsonVal) :=
  parseQS (removeFirstQM queryString)

/-- The Pattern enum of gateway.ts: the five supported HTTP verbs. -/
inductive Verb where
  | post
  | get
  | patch
  | put
  | delete
deriving Repr, DecidableEq

/-- HttpRoute from gateway.ts; the path-to-regexp matcher is opaque and
yields the named captures on a match. -/
structure GwRoute where
  packageName : String
  serviceName : String
  methodName : String
  matcher : String → Option (List (String × String))
  bodyKey : Option String
  responseBodyKey : Option String

/-- RouteRules from gateway.ts: one ordered route list per verb. -/
structure RouteRules where
  post : List GwRoute
  get : List GwRoute
  patch : List GwRoute
  put : List GwRoute
  delete : List GwRoute

/-- Route list lookup this.routes[httpMethod] for a recognized verb. -/
def rulesFor (r : RouteRules) : Verb → List GwRoute
  | Verb.post => r.post
  | Verb.get => r.get
  | Verb.patch => r.patch
  | Verb.put => r.put
  | Verb.delete => r.delete

/-- JS String.prototype.toLowerCase over the character list. -/
def jsToLower (s : String) : String :=
  String.mk (s.data.map Char.toLower)

/-- Interpretation of a lowercased method string as a Pattern key: any other
string indexes no route list. -/
def verbOfString (s : String) : Option Verb :=
  if s = "post" then some Verb.post
  else if s = "get" then some Verb.get
  else if s = "patch" then some Verb.patch
  else if s = "put" then some Verb.put
  else if s = "delete" then some Verb.delete
  else none

/-- An incoming gateway request: method, url, and the outcome of
JSON.parse(rawBody.toString() || "\x7b\x7d") on its raw body, an Except whose
error is the message of the raised parse exception. -/
structure GwRequest where
  method : String
  url : String
  bodyParse : Except String JsonVal

/-- First matching route in list order, as the for loop of
Gateway.matchRoute; each matcher is applied to req.url || "/". -/
def findRoute (url : String) : List GwRoute →
    Option (List (String × String) × GwRoute)
  | [] => none
  | r :: rs =>
    match r.matcher url with
    | some m => some (m, r)
    | none => findRoute url rs

/-- Gateway.matchRoute: a falsy lowercased method raises BadRouteError, an
unrecognized verb makes this.routes[httpMethod] undefined so the for loop
raises a TypeError (a plain JS error, not a TwirpError), and exhausting the
verb route list raises NotFoundError. -/
def matchRoute (rules : RouteRules) (req : GwRequest) :
    Except Failure (List (String × String) × GwRoute) :=
  let m := jsToLower req.method
  if m = "" then
    Except.error (Failure.twirp (badRouteError "method not allowed" req.method req.url))
  else
    match verbOfString m with
    | none =>
      Except.error (Failure.jsError "TypeError" "routes is not iterable")
    | some v =>
      match findRoute (if req.url = "" then "/" else req.url) (rulesFor rules v) with
      | some p => Except.ok p
      | none =>
        Except.error (Failure.twirp (notFoundError ("url " ++ req.url ++ " not found")))

/-- The Malformed error raised by Gateway.prepareTwirpBody for an
undecodable JSON body, with the parse exception recorded via
withCause(e, true). -/
def gwMalformedError (causeMsg : String) : TwirpError :=
  (TwirpError.mk "malformed" "the json request could not be decoded" []).withMeta
    "cause" causeMsg

/-- JS truthiness of an optional string. -/
def jsTruthy (x : Option String) : Bool :=
  match x with
  | none => false
  | some s => s != ""

/-- Gateway.prepareTwirpBody: start from the matched path parameters minus
the synthetic query_string capture; when the capture is truthy and the
bodyKey is not the wildcard, merge the parsed query string beneath the path
parameters; when the bodyKey is truthy, decode the JSON body, the wildcard
spreading the decoded value itself and a named key nesting it, and spread
the request body over it. -/
def prepareTwirpBody (parseQS : String → List (String × JsonVal))
    (matchParams : List (String × String)) (bodyKey : Option String)
    (bodyParse : Except String JsonVal) :
    Except Failure (List (String × JsonVal)) :=
  let queryString := lookupStr "query_string" matchParams
  let params : List (String × JsonVal) :=
    (matchParams.filter (fun p => p.1 != "query_string")).map
      (fun p => (p.1, JsonVal.str p.2))
  let requestBody :=
    if jsTruthy queryString && bodyKey != some "*" then
      mergeObj (gwParseQueryString parseQS (queryString.getD "")) params
    else
      params
  if jsTruthy bodyKey then
    match bodyParse with
    | Except.error em => Except.error (Failure.twirp (gwMalformedError em))
    | Except.ok jb =>
      let body :=
        if bodyKey == some "*" then spreadFields jb
        else [(bodyKey.getD "", jb)]
      Except.ok (mergeObj body requestBody)
  else
    Except.ok (mergeObj [] requestBody)

/-- Gateway.rewrite: match the route, prepare the twirp body; failures of
either step escape to the caller. -/
def rewriteReq (parseQS : String → List (String × JsonVal))
    (rules : RouteRules) (req : GwRequest) :
    Except Failure (List (String × JsonVal)) :=
  match matchRoute rules req with
  | Except.error e => Except.error e
  | Except.ok (m, route) => prepareTwirpBody parseQS m route.bodyKey req.bodyParse

/-- What the twirpRewrite middleware does with one request. -/
inductive GwAction where
  | callNext
  | writeErrResp (w : WrittenResponse)
  | noAction
deriving Repr, DecidableEq

/-- Gateway.twirpRewrite: on success call next; on a TwirpError rejection,
write it unless its code is NotFound, in which case call next; a rejection
that is not a TwirpError is silently dropped by the instanceof guard. -/
def twirpRewriteAction (parseQS : String → List (String × JsonVal))
    (rules : RouteRules) (req : GwRequest) : GwAction :=
  match rewriteReq parseQS rules req with
  | Except.ok _ => GwAction.callNext
  | Except.error (Failure.twirp te) =>
    if te.code ≠ "not_found" then GwAction.writeErrResp (writeError (Failure.twirp te))
    else GwAction.callNext
  | Except.error (Failure.jsError _ _) => GwAction.noAction

/-! Reference HTTP client, from src/twirp/http.client.ts. -/

/-- The fields of a WHATWG URL object read by NodeHttpRPC.  Its protocol
property carries the scheme with the trailing colon. -/
structure URLRecord where
  protocol : String
  hostname : String
  port : String
  pathname : String
deriving Repr, DecidableEq

/-- The isHttps test of NodeHttpRPC: compares url.protocol with the bare
string "https". -/
def nodeHttpIsHttps (u : URLRecord) : Bool :=
  u.protocol == "https"

/-- Which node module NodeHttpRPC issues the request with. -/
inductive HttpModule where
  | httpMod
  | httpsMod
deriving Repr, DecidableEq

/-- Client module selection of NodeHttpRPC. -/
def nodeHttpClientModule (u : URLRecord) : HttpModule :=
  if nodeHttpIsHttps u then HttpModule.httpsMod else HttpModule.httpMod

/-- Connection port of NodeHttpRPC: the explicit URL port when truthy,
otherwise 443 under the isHttps test and 8000 otherwise. -/
def nodeHttpConnectPort (u : URLRecord) : String ⊕ Nat :=
  if u.port != "" then Sum.inl u.port
  else Sum.inr (if nodeHttpIsHttps u then 443 else 8000)

/-- warpErrorResponseToTwirpError from http.client.ts: decode the error
body and rebuild the TwirpError with fromObject. -/
def warpErrorResponseToTwirpError (decoded : ErrObject) : TwirpError :=
  TwirpError.fromObject decoded

/-! Spec-side description of the gateway body assembly, for the refinement
theorem of the prepareTwirpBody claim.  These three definitions follow the
words of the specification (section 4.8, request body assembly), not the
code, and are compared against prepareTwirpBody. -/

/-- Spec side: the matched path parameters excluding the synthetic
query_string capture, as a JSON object. -/
def specPathParams (matchParams : List (String × String)) :
    List (String × JsonVal) :=
  (matchParams.filter (fun p => p.1 != "query_string")).map
    (fun p => (p.1, JsonVal.str p.2))

/-- Spec side: when a query string was captured and the bodyKey is not the
wildcard, the parsed query string is merged beneath the path parameters,
path parameters winning on key collision; otherwise just the path
parameters. -/
def specAssembled (parseQS : String → List (String × JsonVal))
    (matchParams : List (String × String)) (bodyKey : Option String) :
    List (String × JsonVal) :=
  if jsTruthy (lookupStr "query_string" matchParams) && bodyKey != some "*" then
    mergeObj
      (gwParseQueryString parseQS ((lookupStr "query_string" matchParams).getD ""))
      (specPathParams matchParams)
  else specPathParams matchParams

/-- Spec side: with no declared bodyKey the result is the assembled object;
with a declared bodyKey the JSON body is decoded (a decode failure is a
Malformed error), a wildcard bodyKey replaces the assembled object with the
parsed body, a named bodyKey nests the parsed body under that key, and
path/query parameters take precedence over same-named body fields. -/
def specC4Body (parseQS : String → List (String × JsonVal))
    (matchParams : List (String × String)) (bodyKey : Option String)
    (bodyParse : Except String JsonVal) :
    Except Failure (List (String × JsonVal)) :=
  match bodyKey with
  | none => Except.ok (specAssembled parseQS matchParams none)
  | some k =>
    if k = "" then Except.ok (specAssembled parseQS matchParams (some k))
    else
      match bodyParse with
      | Except.error em => Except.error (Failure.twirp (gwMalformedError em))
      | Except.ok jb =>
        if k = "*" then
          Except.ok (mergeObj (spreadFields jb) (specPathParams matchParams))
        else
          Except.ok (mergeObj [(k, jb)]
            (specAssembled parseQS matchParams (some k)))

/-! Theorems. -/

theorem withMeta_code (e : TwirpError) (k v : String) :
    (e.withMeta k v).code = e.code := rfl

theorem withMeta_msg (e : TwirpError) (k v : String) :
    (e.withMeta k v).msg = e.msg := rfl

theorem fromObject_fold_code (l : List (String × String)) :
    ∀ e : TwirpError,
      (l.foldl (fun acc p => acc.withMeta p.1 p.2) e).code = e.code := by
  induction l with
  | nil => intro e; rfl
  | cons p l ih =>
    intro e
    simp only [List.foldl_cons]
    rw [ih]
    rfl

theorem fromObject_fold_msg (l : List (String × String)) :
    ∀ e : TwirpError,
      (l.foldl (fun acc p => acc.withMeta p.1 p.2) e).msg = e.msg := by
  induction l with
  | nil => intro e; rfl
  | cons p l ih =>
    intro e
    simp only [List.foldl_cons]
    rw [ih]
    rfl

/-- C9: httpStatusFromErrorCode maps the eighteen enumerated codes to exactly
the statuses of the specification table and any unrecognized code to 0. -/
theorem claim_C9 :
    twirpErrorCodes.map httpStatusFromErrorCode =
      [408, 500, 400, 400, 408, 404, 404, 409, 403, 401, 429, 412, 409, 400,
       501, 500, 503, 500] ∧
    ∀ code : String, code ∉ twirpErrorCodes → httpStatusFromErrorCode code = 0 := by
  refine ⟨by decide, ?_⟩
  intro code h
  simp only [twirpErrorCodes, List.mem_cons, List.not_mem_nil, or_false,
    not_or] at h
  obtain ⟨h1, h2, h3, h4, h5, h6, h7, h8, h9, h10, h11, h12, h13, h14, h15,
    h16, h17, h18⟩ := h
  simp [httpStatusFromErrorCode, h1, h2, h3, h4, h5, h6, h7, h8, h9, h10, h11,
    h12, h13, h14, h15, h16, h17, h18]

theorem claim_C9_witness :
    "banana" ∉ twirpErrorCodes ∧ httpStatusFromErrorCode "banana" = 0 :=
  ⟨by decide, claim_C9.2 "banana" (by decide)⟩

/-- C6: parseTwirpPath splits the path on "/" and takes the last piece as the
method, the one before as the package.Service pair, and the earlier pieces
rejoined with "/" as the leading piece; the empty path gives three empty
components. -/
theorem claim_C6 :
    (∀ (path : String) (l : List String) (svc m : String),
        jsSplitSlash path = l ++ [svc, m] →
        parseTwirpPath path =
          TwirpPathParts.mk (String.intercalate "/" l) svc m) ∧
    parseTwirpPath "" = TwirpPathParts.mk "" "" "" := by
  constructor
  · intro path l svc m h
    simp only [parseTwirpPath, h]
    have hlen : (l ++ [svc, m]).length = l.length + 2 := by simp
    rw [hlen]
    rw [if_neg (by omega : ¬ (l.length + 2 < 2))]
    have ht : l.length + 2 - 2 = l.length := by omega
    have ht1 : l.length + 2 - 1 = l.length + 1 := by omega
    rw [ht, ht1]
    congr 1
    · exact congrArg (String.intercalate "/") (List.take_left l [svc, m])
    · rw [List.getD_eq_getElem?_getD, List.getElem?_append_right (Nat.le_refl _)]
      simp
    · rw [List.getD_eq_getElem?_getD, List.getElem?_append_right (by omega)]
      simp
  · rfl

theorem claim_C6_witness :
    jsSplitSlash "/twirp/pkg.Svc/Method" = ["", "twirp"] ++ ["pkg.Svc", "Method"] ∧
    parseTwirpPath "/twirp/pkg.Svc/Method" =
      TwirpPathParts.mk "/twirp" "pkg.Svc" "Method" := by
  have h := claim_C6.1 "/twirp/pkg.Svc/Method" ["", "twirp"] "pkg.Svc" "Method"
    (by decide)
  have h2 : String.intercalate "/" ["", "twirp"] = "/twirp" := by decide
  exact ⟨by decide, by rw [h, h2]⟩

/-- C5: a request whose method is not POST is rejected by validateRequest
before any routing, with a bad_route error carrying exactly the documented
message and the twirp_invalid_route metadata, written as a 404 JSON
response. -/
theorem claim_C5 : ∀ (ctx : TwirpCtx) (req : IncomingReq) (pfxConf : String),
    req.method ≠ "POST" →
    validateRequest ctx req pfxConf =
      Except.error (badRouteError
        ("unsupported method " ++ req.method ++ " (only POST is allowed)")
        req.method req.url) ∧
    (badRouteError
        ("unsupported method " ++ req.method ++ " (only POST is allowed)")
        req.method req.url).getMeta "twirp_invalid_route" =
      req.method ++ " " ++ req.url ∧
    writeError (Failure.twirp (badRouteError
        ("unsupported method " ++ req.method ++ " (only POST is allowed)")
        req.method req.url)) =
      WrittenResponse.mk 404 "application/json"
        (badRouteError
          ("unsupported method " ++ req.method ++ " (only POST is allowed)")
          req.method req.url) := by
  intro ctx req pfxConf h
  refine ⟨?_, ?_, ?_⟩
  · simp [validateRequest, h]
  · simp [badRouteError, TwirpError.withMeta, TwirpError.getMeta, setKey,
      lookupStr]
  · have hs : httpStatusFromErrorCode "bad_route" = 404 := by decide
    simp [writeError, mustBeTwirpError, badRouteError, TwirpError.withMeta,
      setKey, hs]

theorem claim_C5_witness :
    ("GET" : String) ≠ "POST" ∧
    validateRequest (TwirpCtx.mk "pkg" "Svc" TwirpContentType.JSON)
      (IncomingReq.mk "GET" "/twirp/pkg.Svc/M" (some "application/json"))
      "/twirp" =
      Except.error (badRouteError
        "unsupported method GET (only POST is allowed)" "GET"
        "/twirp/pkg.Svc/M") := by
  refine ⟨by decide, ?_⟩
  have h := (claim_C5 (TwirpCtx.mk "pkg" "Svc" TwirpContentType.JSON)
    (IncomingReq.mk "GET" "/twirp/pkg.Svc/M" (some "application/json"))
    "/twirp" (by decide)).1
  rw [h]
  rfl

/-- C10: because NodeHttpRPC compares the parsed protocol (which carries its
trailing colon) with the bare string "https", the https branch never fires:
the request always goes through the plain http module and a missing explicit
port defaults to 8000, never 443. -/
theorem claim_C10 : ∀ u : URLRecord, u.protocol.data.getLast? = some ':' →
    nodeHttpClientModule u = HttpModule.httpMod ∧
    (u.port = "" → nodeHttpConnectPort u = Sum.inr 8000) := by
  intro u h
  have hne : u.protocol ≠ "https" := by
    intro he
    rw [he] at h
    exact absurd h (by decide)
  have hb : (u.protocol == "https") = false := beq_eq_false_iff_ne.mpr hne
  constructor
  · simp [nodeHttpClientModule, nodeHttpIsHttps, hb]
  · intro hp
    simp [nodeHttpConnectPort, nodeHttpIsHttps, hb, hp]

theorem claim_C10_witness :
    ("https:" : String).data.getLast? = some ':' ∧
    nodeHttpClientModule (URLRecord.mk "https:" "example.com" "" "/twirp") =
      HttpModule.httpMod ∧
    nodeHttpConnectPort (URLRecord.mk "https:" "example.com" "" "/twirp") =
      Sum.inr 8000 := by
  refine ⟨by decide, ?_, ?_⟩
  · exact (claim_C10 (URLRecord.mk "https:" "example.com" "" "/twirp")
      (by decide)).1
  · exact (claim_C10 (URLRecord.mk "https:" "example.com" "" "/twirp")
      (by decide)).2 rfl

/-- C2 counterexample: fromObject keeps an unrecognized nonempty code string
as-is, so the reconstructed code is not one of the enumerated constants. -/
theorem claim_C2_counterexample :
    (TwirpError.fromObject (ErrObject.mk (some "banana") (some "boom") [])).code
      = "banana" ∧
    "banana" ∉ twirpErrorCodes ∧
    isValidErrorCode "banana" = false := by decide

/-- C2 amended: fromObject defaults a missing or empty msg to "unknown" and
otherwise keeps it, and defaults a missing or empty code to "unknown" and
otherwise keeps the code string unchanged, enumerated or not. -/
theorem claim_C2_amended : ∀ obj : ErrObject,
    ((obj.msg = none ∨ obj.msg = some "") →
      (TwirpError.fromObject obj).msg = "unknown") ∧
    (∀ s : String, obj.msg = some s → s ≠ "" →
      (TwirpError.fromObject obj).msg = s) ∧
    ((obj.code = none ∨ obj.code = some "") →
      (TwirpError.fromObject obj).code = "unknown") ∧
    (∀ s : String, obj.code = some s → s ≠ "" →
      (TwirpError.fromObject obj).code = s) := by
  intro obj
  refine ⟨?_, ?_, ?_, ?_⟩
  · intro h
    unfold TwirpError.fromObject
    rw [fromObject_fold_msg]
    rcases h with h | h <;> simp [jsOrString, h]
  · intro s hs hne
    unfold TwirpError.fromObject
    rw [fromObject_fold_msg]
    simp [jsOrString, hs, hne]
  · intro h
    unfold TwirpError.fromObject
    rw [fromObject_fold_code]
    rcases h with h | h <;> simp [jsOrString, h]
  · intro s hs hne
    unfold TwirpError.fromObject
    rw [fromObject_fold_code]
    simp [jsOrString, hs, hne]

theorem foldl_append_flatten {α : Type} (g : α → List String) (l : List α) :
    ∀ acc : List String,
      l.foldl (fun a h => a ++ g h) acc = acc ++ (l.map g).flatten := by
  induction l with
  | nil => intro acc; simp
  | cons x l ih =>
    intro acc
    simp only [List.foldl_cons, List.map_cons, List.flatten_cons]
    rw [ih]
    simp [List.append_assoc]

/-- C7: chainInterceptors yields none for no interceptors, the interceptor
itself for one, and for a list the composition with the first interceptor
outermost: on two interceptors X and Y and a terminal handler, the pre-next
phase of X runs, then the pre-next phase of Y, then the handler, then the
post-next phase of Y, then the post-next phase of X, and the result is the
one X returns. -/
theorem claim_C7 :
    (∀ (C R S : Type), @chainInterceptors C R S [] = none) ∧
    (∀ (C R S : Type) (i : InterceptorFn C R S), chainInterceptors [i] = some i) ∧
    (∀ (C R S : Type) (xPre xPost yPre yPost hEv : String) (f g : S → S)
       (ctx : C) (request : R) (v : S),
      ∃ comp : InterceptorFn C R S,
        chainInterceptors
            [logInterceptor xPre xPost f, logInterceptor yPre yPost g] =
          some comp ∧
        comp ctx request (fun _ _ => ([hEv], v)) =
          ([xPre, yPre, hEv, yPost, xPost], f (g v))) := by
  refine ⟨fun _ _ _ => rfl, fun _ _ _ _ => rfl, ?_⟩
  intro C R S xPre xPost yPre yPost hEv f g ctx request v
  exact ⟨_, rfl, rfl⟩

/-- C8: chainHooks yields null for no hook sets, the set itself for one, and
otherwise a composite whose every lifecycle callback runs, in registration
order, the corresponding callback of each input set that defines it,
skipping sets that lack it, the error callback passing the same TwirpError
to every input error callback. -/
theorem claim_C8 :
    (∀ (Ctx : Type), @chainHooks Ctx [] = none) ∧
    (∀ (Ctx : Type) (h : ServerHooks Ctx), chainHooks [h] = some h) ∧
    (∀ (Ctx : Type) (h1 h2 : ServerHooks Ctx) (rest : List (ServerHooks Ctx))
       (ctx : Ctx) (err : TwirpError),
      ∃ c : ServerHooks Ctx,
        chainHooks (h1 :: h2 :: rest) = some c ∧
        runCtxHook c.requestReceived ctx =
          ((h1 :: h2 :: rest).map
            (fun h => runCtxHook h.requestReceived ctx)).flatten ∧
        runCtxHook c.requestRouted ctx =
          ((h1 :: h2 :: rest).map
            (fun h => runCtxHook h.requestRouted ctx)).flatten ∧
        runCtxHook c.requestPrepared ctx =
          ((h1 :: h2 :: rest).map
            (fun h => runCtxHook h.requestPrepared ctx)).flatten ∧
        runCtxHook c.responsePrepared ctx =
          ((h1 :: h2 :: rest).map
            (fun h => runCtxHook h.responsePrepared ctx)).flatten ∧
        runCtxHook c.requestSent ctx =
          ((h1 :: h2 :: rest).map
            (fun h => runCtxHook h.requestSent ctx)).flatten ∧
        runCtxHook c.responseSent ctx =
          ((h1 :: h2 :: rest).map
            (fun h => runCtxHook h.responseSent ctx)).flatten ∧
        runErrHook c.error ctx err =
          ((h1 :: h2 :: rest).map
            (fun h => runErrHook h.error ctx err)).flatten) := by
  refine ⟨fun _ => rfl, fun _ _ => rfl, ?_⟩
  intro Ctx h1 h2 rest ctx err
  refine ⟨_, rfl, ?_, ?_, ?_, ?_, ?_, ?_, ?_⟩ <;>
    simp [runCtxHook, runErrHook, fanoutCtx, fanoutErr, foldl_append_flatten]

theorem findRoute_eq_none (url : String) (routes : List GwRoute)
    (h : ∀ r ∈ routes, r.matcher url = none) : findRoute url routes = none := by
  induction routes with
  | nil => rfl
  | cons r rs ih =>
    have hr : r.matcher url = none := h r (List.mem_cons_self r rs)
    simp only [findRoute, hr]
    exact ih (fun x hx => h x (List.mem_cons_of_mem r hx))

/-- C3 counterexample: a request whose verb has no route table (here OPTIONS)
makes the route lookup fail with a plain TypeError rather than a TwirpError,
and the middleware then neither writes a response nor calls next, contradicting
the claim that every non-NotFound failure is written immediately. -/
theorem claim_C3_counterexample :
    rewriteReq (fun _ => []) (RouteRules.mk [] [] [] [] [])
      (GwRequest.mk "OPTIONS" "/foo" (Except.ok JsonVal.null)) =
      Except.error (Failure.jsError "TypeError" "routes is not iterable") ∧
    twirpRewriteAction (fun _ => []) (RouteRules.mk [] [] [] [] [])
      (GwRequest.mk "OPTIONS" "/foo" (Except.ok JsonVal.null)) =
      GwAction.noAction ∧
    (∀ w : WrittenResponse,
      twirpRewriteAction (fun _ => []) (RouteRules.mk [] [] [] [] [])
        (GwRequest.mk "OPTIONS" "/foo" (Except.ok JsonVal.null)) ≠
      GwAction.writeErrResp w) := by
  refine ⟨rfl, rfl, ?_⟩
  intro w
  have hact : twirpRewriteAction (fun _ => []) (RouteRules.mk [] [] [] [] [])
      (GwRequest.mk "OPTIONS" "/foo" (Except.ok JsonVal.null)) =
      GwAction.noAction := rfl
  simp [hact]

/-- C3 amended: when route matching or body preparation fails with a
NotFound-coded TwirpError (in particular when no matcher of the verb's route
list matches the URL) the middleware calls next without writing; when it
fails with any other TwirpError the middleware writes that error as a Twirp
JSON error response with the mapped status; on success it calls next; a
failure that is not a TwirpError is neither written nor passed on. -/
theorem claim_C3_amended :
    ∀ (parseQS : String → List (String × JsonVal)) (rules : RouteRules)
      (req : GwRequest),
    (∀ v : Verb, verbOfString (jsToLower req.method) = some v →
      (∀ r ∈ rulesFor rules v,
        r.matcher (if req.url = "" then "/" else req.url) = none) →
      twirpRewriteAction parseQS rules req = GwAction.callNext) ∧
    (∀ te : TwirpError,
      rewriteReq parseQS rules req = Except.error (Failure.twirp te) →
      te.code = "not_found" →
      twirpRewriteAction parseQS rules req = GwAction.callNext) ∧
    (∀ te : TwirpError,
      rewriteReq parseQS rules req = Except.error (Failure.twirp te) →
      te.code ≠ "not_found" →
      twirpRewriteAction parseQS rules req =
        GwAction.writeErrResp (WrittenResponse.mk
          (httpStatusFromErrorCode te.code) "application/json" te)) ∧
    (∀ b, rewriteReq parseQS rules req = Except.ok b →
      twirpRewriteAction parseQS rules req = GwAction.callNext) ∧
    (∀ name emsg,
      rewriteReq parseQS rules req = Except.error (Failure.jsError name emsg) →
      twirpRewriteAction parseQS rules req = GwAction.noAction) := by
  intro parseQS rules req
  refine ⟨?_, ?_, ?_, ?_, ?_⟩
  · intro v hv hall
    have hmr : matchRoute rules req =
        Except.error (Failure.twirp
          (notFoundError ("url " ++ req.url ++ " not found"))) := by
      unfold matchRoute
      by_cases hm : jsToLower req.method = ""
      · rw [hm] at hv
        have hnone : verbOfString "" = none := by decide
        rw [hnone] at hv
        cases hv
      · rw [if_neg hm, hv]
        simp only []
        rw [findRoute_eq_none _ _ hall]
    simp only [twirpRewriteAction, rewriteReq, hmr]
    simp [notFoundError]
  · intro te h hnf
    simp only [twirpRewriteAction, h]
    simp [hnf]
  · intro te h hnf
    simp only [twirpRewriteAction, h]
    simp [hnf, writeError, mustBeTwirpError]
  · intro b h
    simp only [twirpRewriteAction, h]
  · intro name emsg h
    simp only [twirpRewriteAction, h]

theorem claim_C3_amended_witness :
    twirpRewriteAction (fun _ => [])
      (RouteRules.mk [] [GwRoute.mk "pkg" "Svc" "M" (fun _ => none) none none]
        [] [] [])
      (GwRequest.mk "GET" "/hats" (Except.ok JsonVal.null)) =
      GwAction.callNext := by
  refine (claim_C3_amended (fun _ => [])
    (RouteRules.mk [] [GwRoute.mk "pkg" "Svc" "M" (fun _ => none) none none]
      [] [] [])
    (GwRequest.mk "GET" "/hats" (Except.ok JsonVal.null))).1 Verb.get
    (by decide) ?_
  intro r hr
  simp only [rulesFor, List.mem_singleton] at hr
  subst hr
  rfl

theorem lookupStr_cons {α : Type} (k : String) (q : String × α)
    (l : List (String × α)) :
    lookupStr k (q :: l) =
      if (q.1 == k) = true then some q.2 else lookupStr k l := by
  unfold lookupStr
  by_cases h : (q.1 == k) = true
  · rw [@List.find?_cons_of_pos _ (fun p => p.1 == k) q l h, if_pos h]
    rfl
  · rw [@List.find?_cons_of_neg _ (fun p => p.1 == k) q l h, if_neg h]

theorem lookupStr_append {α : Type} (k : String) (x y : List (String × α)) :
    lookupStr k (x ++ y) = (lookupStr k x).or (lookupStr k y) := by
  unfold lookupStr
  rw [List.find?_append]
  cases List.find? (fun p => p.1 == k) x <;> simp [Option.or]

theorem fst_merge_entry (b : List (String × JsonVal)) (q : String × JsonVal) :
    ((match lookupStr q.1 b with
      | some v => (q.1, v)
      | none => q) : String × JsonVal).1 = q.1 := by
  cases lookupStr q.1 b <;> rfl

theorem lookupStr_map_merge (k : String) (b : List (String × JsonVal)) :
    ∀ a : List (String × JsonVal),
      lookupStr k (a.map (fun p => match lookupStr p.1 b with
        | some v => (p.1, v)
        | none => p)) =
      (lookupStr k a).map (fun w => match lookupStr k b with
        | some v => v
        | none => w) := by
  intro a
  induction a with
  | nil => rfl
  | cons q a ih =>
    simp only [List.map_cons]
    rw [lookupStr_cons, lookupStr_cons]
    have hfst := fst_merge_entry b q
    rw [hfst]
    by_cases hq : (q.1 == k) = true
    · rw [if_pos hq, if_pos hq]
      have hqk : q.1 = k := by simpa using hq
      rw [hqk]
      cases lookupStr k b <;> rfl
    · rw [if_neg hq, if_neg hq, ih]

theorem lookupStr_filter_of_none (k : String) (a : List (String × JsonVal))
    (hka : lookupStr k a = none) :
    ∀ b : List (String × JsonVal),
      lookupStr k (b.filter (fun q => (lookupStr q.1 a).isNone)) =
      lookupStr k b := by
  intro b
  induction b with
  | nil => rfl
  | cons q b ih =>
    by_cases hq : (q.1 == k) = true
    · have hqk : q.1 = k := by simpa using hq
      have hg : ((fun r : String × JsonVal => (lookupStr r.1 a).isNone) q) = true := by
        simp only []
        rw [hqk, hka]
        rfl
      rw [@List.filter_cons_of_pos _ (fun r => (lookupStr r.1 a).isNone) q b hg,
        lookupStr_cons, lookupStr_cons, if_pos hq, if_pos hq]
    · by_cases hg : ((fun r : String × JsonVal => (lookupStr r.1 a).isNone) q) = true
      · rw [@List.filter_cons_of_pos _ (fun r => (lookupStr r.1 a).isNone) q b hg,
          lookupStr_cons, lookupStr_cons, if_neg hq, if_neg hq, ih]
      · rw [@List.filter_cons_of_neg _ (fun r => (lookupStr r.1 a).isNone) q b hg,
          lookupStr_cons, if_neg hq, ih]

theorem lookupStr_mergeObj_right (k : String) (v : JsonVal)
    (a b : List (String × JsonVal)) (h : lookupStr k b = some v) :
    lookupStr k (mergeObj a b) = some v := by
  unfold mergeObj
  rw [lookupStr_append, lookupStr_map_merge]
  cases hka : lookupStr k a with
  | some w =>
    rw [h]
    rfl
  | none =>
    rw [Option.map_none', Option.none_or, lookupStr_filter_of_none k a hka b, h]

theorem mergeObj_nil (b : List (String × JsonVal)) : mergeObj [] b = b := by
  simp [mergeObj, lookupStr]

/-- C4: the body assembly of prepareTwirpBody refines the specification
description: path parameters minus the query_string capture first, query
string merged beneath them unless the bodyKey is the wildcard, the JSON body
decoded only when a bodyKey is declared (a wildcard replacing the assembled
object and a named key nesting it), path/query parameters taking precedence
over same-named body fields, and a body that fails to decode raising a
Malformed error. -/
theorem claim_C4 :
    ∀ (parseQS : String → List (String × JsonVal))
      (matchParams : List (String × String)) (bodyKey : Option String)
      (bodyParse : Except String JsonVal),
    prepareTwirpBody parseQS matchParams bodyKey bodyParse =
      specC4Body parseQS matchParams bodyKey bodyParse ∧
    (∀ key v, lookupStr key (specPathParams matchParams) = some v →
      lookupStr key (specAssembled parseQS matchParams bodyKey) = some v) ∧
    (∀ k jb, bodyKey = some k → k ≠ "" → k ≠ "*" →
      bodyParse = Except.ok jb →
      prepareTwirpBody parseQS matchParams bodyKey bodyParse =
        Except.ok (mergeObj [(k, jb)]
          (specAssembled parseQS matchParams bodyKey)) ∧
      ∀ key v,
        lookupStr key (specAssembled parseQS matchParams bodyKey) = some v →
        lookupStr key (mergeObj [(k, jb)]
          (specAssembled parseQS matchParams bodyKey)) = some v) ∧
    (∀ jb, bodyKey = some "*" → bodyParse = Except.ok jb →
      prepareTwirpBody parseQS matchParams bodyKey bodyParse =
        Except.ok (mergeObj (spreadFields jb) (specPathParams matchParams)) ∧
      ∀ key v, lookupStr key (specPathParams matchParams) = some v →
        lookupStr key (mergeObj (spreadFields jb)
          (specPathParams matchParams)) = some v) ∧
    (∀ em, jsTruthy bodyKey = true → bodyParse = Except.error em →
      prepareTwirpBody parseQS matchParams bodyKey bodyParse =
        Except.error (Failure.twirp (gwMalformedError em)) ∧
      (gwMalformedError em).code = "malformed") := by
  intro parseQS matchParams bodyKey bodyParse
  have heq : prepareTwirpBody parseQS matchParams bodyKey bodyParse =
      specC4Body parseQS matchParams bodyKey bodyParse := by
    cases bodyKey with
    | none =>
      simp [prepareTwirpBody, specC4Body, specAssembled, specPathParams,
        jsTruthy, mergeObj_nil]
    | some k =>
      by_cases hk : k = ""
      · subst hk
        simp [prepareTwirpBody, specC4Body, specAssembled, specPathParams,
          jsTruthy, mergeObj_nil]
      · by_cases hks : k = "*"
        · subst hks
          cases bodyParse with
          | error em =>
            simp [prepareTwirpBody, specC4Body, jsTruthy]
          | ok jb =>
            simp [prepareTwirpBody, specC4Body, specAssembled, specPathParams,
              jsTruthy]
        · cases bodyParse with
          | error em =>
            simp [prepareTwirpBody, specC4Body, jsTruthy, hk, hks]
          | ok jb =>
            simp [prepareTwirpBody, specC4Body, specAssembled, specPathParams,
              jsTruthy, hk, hks]
  refine ⟨heq, ?_, ?_, ?_, ?_⟩
  · intro key v hkv
    unfold specAssembled
    by_cases hc : (jsTruthy (lookupStr "query_string" matchParams) &&
        bodyKey != some "*") = true
    · rw [if_pos hc]
      exact lookupStr_mergeObj_right key v _ _ hkv
    · rw [if_neg hc]
      exact hkv
  · intro k jb hbk hk hks hbp
    subst hbk
    subst hbp
    constructor
    · rw [heq]
      simp [specC4Body, hk, hks]
    · intro key v hkv
      exact lookupStr_mergeObj_right key v _ _ hkv
  · intro jb hbk hbp
    subst hbk
    subst hbp
    constructor
    · rw [heq]
      simp [specC4Body]
    · intro key v hkv
      exact lookupStr_mergeObj_right key v _ _ hkv
  · intro em htr hbp
    cases bodyKey with
    | none => simp [jsTruthy] at htr
    | some k =>
      have hk : ¬ k = "" := by simpa [jsTruthy] using htr
      subst hbp
      constructor
      · rw [heq]
        simp [specC4Body, hk]
      · rfl

theorem claim_C4_witness :
    prepareTwirpBody (fun _ => [("inches", JsonVal.num 2)])
      [("hat_id", "12345"), ("query_string", "inches=2")] (some "size")
      (Except.ok (JsonVal.num 30)) =
      Except.ok [("size", JsonVal.num 30), ("inches", JsonVal.num 2),
        ("hat_id", JsonVal.str "12345")] := by
  have h := ((claim_C4 (fun _ => [("inches", JsonVal.num 2)])
    [("hat_id", "12345"), ("query_string", "inches=2")] (some "size")
    (Except.ok (JsonVal.num 30))).2.2.1 "size" (JsonVal.num 30) rfl
    (by decide) (by decide) rfl).1
  rw [h]
  rfl

theorem claim_C2_amended_witness :
    (TwirpError.fromObject (ErrObject.mk (some "banana") none [])).code =
      "banana" ∧
    (TwirpError.fromObject (ErrObject.mk (some "banana") none [])).msg =
      "unknown" := by
  refine ⟨?_, ?_⟩
  · exact (claim_C2_amended (ErrObject.mk (some "banana") none [])).2.2.2
      "banana" rfl (by decide)
  · exact (claim_C2_amended (ErrObject.mk (some "banana") none [])).1
      (Or.inl rfl)

theorem httpHandlerTrace_eq (s : ServerReq) :
    httpHandlerTrace s =
      (tryBlock s).1 ++
        ((match (tryBlock s).2 with
          | none => []
          | some f => [Ev.hookError (mustBeTwirpError f),
                       Ev.writeErrResp (writeError f)]) ++
         [Ev.hookAt HookName.responseSent, Ev.hookAt HookName.requestSent]) := by
  unfold httpHandlerTrace
  rw [List.append_assoc]

theorem tryBlock_events_ok (s : ServerReq) :
    ((tryBlock s).1).all
      (fun e => !isSentHookEv e && !isErrorHookEv e && !isErrWriteEv e) = true := by
  unfold tryBlock
  repeat' split
  all_goals
    simp [isSentHookEv, isRespSentEv, isReqSentEv, isErrorHookEv, isErrWriteEv]

theorem noWriteAfterSent_of_pre (pre : List Ev)
    (h : pre.all (fun e => !isSentHookEv e) = true) :
    noWriteAfterSent (pre ++
      [Ev.hookAt HookName.responseSent, Ev.hookAt HookName.requestSent]) = true := by
  induction pre with
  | nil => rfl
  | cons e pre ih =>
    simp only [List.all_cons, Bool.and_eq_true] at h
    simp only [List.cons_append, noWriteAfterSent]
    rw [h.1]
    simp only [Bool.true_or, Bool.true_and]
    exact ih h.2

theorem errHookFirst_of_pre (pre : List Ev)
    (h : pre.all (fun e => !isErrWriteEv e && !isErrorHookEv e) = true)
    (te : TwirpError) (rest : List Ev) :
    errHookBeforeErrWrite (pre ++ Ev.hookError te :: rest) = true := by
  induction pre with
  | nil => rfl
  | cons e pre ih =>
    simp only [List.all_cons, Bool.and_eq_true, Bool.not_eq_true'] at h
    simp only [List.cons_append, errHookBeforeErrWrite, h.1.1, h.1.2]
    simp only [Bool.false_eq_true, if_false]
    exact ih h.2

/-- C1: in every handled request the responseSent hook point and its
deprecated alias requestSent fire exactly once each and only after any
response write, whatever the outcome, and in every failing request the error
hook point fires exactly once, with the failure coerced through
mustBeTwirpError, before the error response write. -/
theorem claim_C1 : ∀ s : ServerReq,
    (httpHandlerTrace s).countP isRespSentEv = 1 ∧
    (httpHandlerTrace s).countP isReqSentEv = 1 ∧
    noWriteAfterSent (httpHandlerTrace s) = true ∧
    (∀ f, (tryBlock s).2 = some f →
      (httpHandlerTrace s).filter isErrorHookEv =
        [Ev.hookError (mustBeTwirpError f)] ∧
      (httpHandlerTrace s).filter isErrWriteEv =
        [Ev.writeErrResp (writeError f)] ∧
      errHookBeforeErrWrite (httpHandlerTrace s) = true) ∧
    ((tryBlock s).2 = none →
      (httpHandlerTrace s).filter isErrorHookEv = []) := by
  intro s
  have hall := tryBlock_events_ok s
  have hpre : ∀ e ∈ (tryBlock s).1,
      isSentHookEv e = false ∧ isErrorHookEv e = false ∧
      isErrWriteEv e = false := by
    intro e he
    have h := List.all_eq_true.mp hall e he
    simp only [Bool.and_eq_true, Bool.not_eq_true'] at h
    exact ⟨h.1.1, h.1.2, h.2⟩
  have hresp : ∀ e ∈ (tryBlock s).1, isRespSentEv e = false := by
    intro e he
    have h := (hpre e he).1
    unfold isSentHookEv at h
    exact (Bool.or_eq_false_iff.mp h).1
  have hreq : ∀ e ∈ (tryBlock s).1, isReqSentEv e = false := by
    intro e he
    have h := (hpre e he).1
    unfold isSentHookEv at h
    exact (Bool.or_eq_false_iff.mp h).2
  rw [httpHandlerTrace_eq]
  cases hfo : (tryBlock s).2 with
  | none =>
    refine ⟨?_, ?_, ?_, ?_, ?_⟩
    · rw [List.countP_append]
      rw [List.countP_eq_zero.mpr (fun a ha => by simp [hresp a ha])]
      decide
    · rw [List.countP_append]
      rw [List.countP_eq_zero.mpr (fun a ha => by simp [hreq a ha])]
      decide
    · simp only [List.nil_append]
      exact noWriteAfterSent_of_pre _ (by
        rw [List.all_eq_true]
        intro x hx
        simp [(hpre x hx).1])
    · intro f h
      simp at h
    · intro _
      rw [List.filter_append]
      rw [List.filter_eq_nil_iff.mpr (fun a ha => by simp [(hpre a ha).2.1])]
      decide
  | some f =>
    refine ⟨?_, ?_, ?_, ?_, ?_⟩
    · rw [List.countP_append]
      rw [List.countP_eq_zero.mpr (fun a ha => by simp [hresp a ha])]
      simp [List.countP_cons, isRespSentEv]
    · rw [List.countP_append]
      rw [List.countP_eq_zero.mpr (fun a ha => by simp [hreq a ha])]
      simp [List.countP_cons, isReqSentEv]
    · rw [← List.append_assoc]
      refine noWriteAfterSent_of_pre _ ?_
      rw [List.all_append, Bool.and_eq_true]
      constructor
      · rw [List.all_eq_true]
        intro x hx
        simp [(hpre x hx).1]
      · simp [isSentHookEv, isRespSentEv, isReqSentEv]
    · intro f2 h
      injection h with h2
      subst h2
      refine ⟨?_, ?_, ?_⟩
      · rw [List.filter_append]
        rw [List.filter_eq_nil_iff.mpr (fun a ha => by simp [(hpre a ha).2.1])]
        simp [isErrorHookEv]
      · rw [List.filter_append]
        rw [List.filter_eq_nil_iff.mpr (fun a ha => by simp [(hpre a ha).2.2])]
        simp [isErrWriteEv]
      · simp only [List.cons_append]
        refine errHookFirst_of_pre _ ?_ _ _
        rw [List.all_eq_true]
        intro x hx
        simp [Bool.not_eq_true', (hpre x hx).2.1, (hpre x hx).2.2]
    · intro h
      simp at h

theorem claim_C1_witness :
    (tryBlock (ServerReq.mk
        (TwirpCtx.mk "pkg" "Svc" TwirpContentType.JSON)
        (IncomingReq.mk "POST" "/twirp/pkg.Svc/M" (some "application/json"))
        "/twirp" none true none none
        (Except.error (Failure.twirp (internalServerError "boom"))))).2 =
      some (Failure.twirp (internalServerError "boom")) ∧
    (httpHandlerTrace (ServerReq.mk
        (TwirpCtx.mk "pkg" "Svc" TwirpContentType.JSON)
        (IncomingReq.mk "POST" "/twirp/pkg.Svc/M" (some "application/json"))
        "/twirp" none true none none
        (Except.error (Failure.twirp (internalServerError "boom"))))).countP
      isRespSentEv = 1 ∧
    (httpHandlerTrace (ServerReq.mk
        (TwirpCtx.mk "pkg" "Svc" TwirpContentType.JSON)
        (IncomingReq.mk "POST" "/twirp/pkg.Svc/M" (some "application/json"))
        "/twirp" none true none none
        (Except.error (Failure.twirp (internalServerError "boom"))))).filter
      isErrorHookEv = [Ev.hookError (internalServerError "boom")] ∧
    errHookBeforeErrWrite (httpHandlerTrace (ServerReq.mk
        (TwirpCtx.mk "pkg" "Svc" TwirpContentType.JSON)
        (IncomingReq.mk "POST" "/twirp/pkg.Svc/M" (some "application/json"))
        "/twirp" none true none none
        (Except.error (Failure.twirp (internalServerError "boom"))))) = true := by
  have h := claim_C1 (ServerReq.mk
    (TwirpCtx.mk "pkg" "Svc" TwirpContentType.JSON)
    (IncomingReq.mk "POST" "/twirp/pkg.Svc/M" (some "application/json"))
    "/twirp" none true none none
    (Except.error (Failure.twirp (internalServerError "boom"))))
  have h4 := h.2.2.2.1 (Failure.twirp (internalServerError "boom")) rfl
  refine ⟨rfl, h.1, ?_, h4.2.2⟩
  rw [h4.1]
  rfl

end TwirpTs
